import Mathlib

/-!
Verification of the pagination-to-stream adapter (`make_stream`) of the
twitch_api repository, together with the convenience helpers
(`get_followed_streams`, `get_broadcaster_subscriptions`) and the
`Paginated` implementation of `SearchChannelsRequest`.

The embedding follows `src/helix/client/client_ext.rs` closely:

* `StateMode` is the Rust enum of the same name with its four variants
  `Req`, `Cont`, `Next`, `Failed`; the `VecDeque<Item>` buffer is a
  `List I` whose `pop_front` is the head of the list.
* `StateMode.take_initial`, `StateMode.take_next` and `State.get_next`
  are the helper functions of the source; the branches that panic in
  Rust (`expect("oops")` / `todo!("hmmm")` / `assert!` /
  `panic!("oops")`) are modelled by returning `none`.
* `step` is the body of the closure handed to `futures::stream::unfold`:
  one pull of the stream.  A pull either yields one `Result<Item, _>`
  together with the successor state, terminates the stream, or hits one
  of the source's placeholder panics (`StepOut.panic`).  Every executor
  round trip performed during the pull is recorded as an
  `Event.execCall`, and every invocation of `Response.get_next` as an
  `Event.getNextCall` carrying the pagination cursor of the response it
  was invoked on.
* `run` pulls the stream repeatedly (fuel-bounded), concatenating the
  yielded items and the recorded events.

The `Response` envelope and its `get_next` continuation are not part of
the staged source files (only their callers are), so they are modelled
from the spec, as indicated on their doc comments.
-/

namespace TwitchStream

/-- Modelled from the spec: the pagination cursor is an opaque token
("string or equivalent", spec section 3); it is modelled as `Nat` so that
the test servers below can use it as a page index symbolically. -/
abbrev Cursor := Nat

/-- Modelled from the spec: the adapter propagates the executor's error
type unchanged (spec section 7).  `Custom` is the precondition error a
convenience helper produces synchronously; `Request` stands for every
error the executor itself can produce (transport, authorization, decode,
server-reported). -/
inductive ClientError where
  | Custom : String → ClientError
  | Request : String → ClientError
deriving DecidableEq, Repr

/-- Modelled from the spec: the response envelope (spec section 3,
`src/helix/response.rs` is not among the staged files): one decoded
payload, an optional pagination cursor, the retained original request,
and an optional total count. -/
structure Response (R P : Type) where
  data : P
  pagination : Option Cursor
  request : Option R
  total : Option Nat
deriving DecidableEq, Repr

/-- The three placeholder-panic messages of the source: `todo!("hmmm")`
in `take_initial`/`take_next`, `panic!("oops")` (and the `assert!`) in
`State::get_next`, and `todo!("failed to process request")` in the
catch-all arm of the unfold closure. -/
inductive PanicMsg where
  | hmmm : PanicMsg
  | oops : PanicMsg
  | failedToProcess : PanicMsg
deriving DecidableEq, Repr

/-- Observable side effects of one pull: `execCall req` records one HTTP
round trip issued for `req`; `getNextCall c` records an invocation of
`Response::get_next` on a response whose pagination cursor was `c`. -/
inductive Event (R : Type) where
  | execCall : R → Event R
  | getNextCall : Option Cursor → Event R
deriving DecidableEq, Repr

/-- The `StateMode` enum of `make_stream` (client_ext.rs): `Req` holds
the not-yet-issued initial request, `Cont` a fetched response plus the
buffer of un-yielded items, `Next` a drained response awaiting its
continuation call, `Failed` the terminal error state. -/
inductive StateMode (R P I : Type) where
  | Req : Option R → StateMode R P I
  | Cont : Response R P → List I → StateMode R P I
  | Next : Option (Response R P) → StateMode R P I
  | Failed : StateMode R P I
deriving DecidableEq, Repr

/-- `StateMode::take_initial`: returns the initial request when the mode
is `Req(Some(_))`; the `todo!("hmmm")` / `expect("oops")` paths of the
source are modelled as `none`. -/
def StateMode.take_initial {R P I : Type} : StateMode R P I → Option R
  | .Req (some r) => some r
  | _ => none

/-- `StateMode::take_next`: returns the retained response when the mode
is `Next(Some(_))`; the `todo!("hmmm")` / `expect("oops")` paths of the
source are modelled as `none`. -/
def StateMode.take_next {R P I : Type} : StateMode R P I → Option (Response R P)
  | .Next (some r) => some r
  | _ => none

/-- `State::get_next`: moves a `Cont` mode with an empty buffer to
`Next(Some(response))`.  The `assert!(d.is_empty())` failure and the
`panic!("oops")` of the catch-all arm are modelled as `none`. -/
def State.get_next {R P I : Type} : StateMode R P I → Option (StateMode R P I)
  | .Cont r d => if d.isEmpty then some (.Next (some r)) else none
  | _ => none

/-- Modelled from the spec: `Response::next` / `Response::get_next`
(spec sections 4.2 and 6, the function body is not among the staged
files): it "uses the retained cursor and original request to build and
issue the next call" and "returns `None` if no cursor was present",
without issuing any call in that case.  The second component records the
executor round trips it issued. -/
def Response.get_next {R P E : Type} (exec : R → Except E (Response R P))
    (setPag : R → Option Cursor → R) (r : Response R P) :
    Except E (Option (Response R P)) × List (Event R) :=
  match r.request, r.pagination with
  | some q, some c => ((exec (setPag q (some c))).map some, [.execCall (setPag q (some c))])
  | _, _ => (Except.ok none, [])

/-- Decidable equality for `Except`, used by the concrete evaluations. -/
instance exceptDecEq {E I : Type} [DecidableEq E] [DecidableEq I] :
    DecidableEq (Except E I) := fun x y =>
  match x, y with
  | .ok a, .ok b =>
    if h : a = b then isTrue (by rw [h]) else isFalse (by simp [h])
  | .error a, .error b =>
    if h : a = b then isTrue (by rw [h]) else isFalse (by simp [h])
  | .ok _, .error _ => isFalse (by simp)
  | .error _, .ok _ => isFalse (by simp)

/-- Result of one pull of the unfold closure: yield one item and a
successor state, terminate the stream (the closure returned `None`), or
hit one of the source's placeholder panics. -/
inductive StepOut (E I M : Type) where
  | yield : Except E I → M → StepOut E I M
  | done : StepOut E I M
  | panic : PanicMsg → StepOut E I M
deriving DecidableEq, Repr

/-- One pull of the stream together with the events it caused. -/
structure StepRes (R E P I : Type) where
  out : StepOut E I (StateMode R P I)
  events : List (Event R)
deriving DecidableEq, Repr

/-- The body of the closure handed to `futures::stream::unfold` in
`make_stream` (client_ext.rs), one branch per `StateMode` pattern of the
source; the catch-all arm is the source's
`todo!("failed to process request")`. -/
def step {R P E I : Type} (exec : R → Except E (Response R P))
    (setPag : R → Option Cursor → R) (fn : P → List I) :
    StateMode R P I → StepRes R E P I
  | .Req (some r) =>
    match (StateMode.Req (some r) : StateMode R P I).take_initial with
    | none => ⟨.panic .hmmm, []⟩
    | some q =>
      match exec q with
      | .error e => ⟨.yield (.error e) .Failed, [.execCall q]⟩
      | .ok resp =>
        match fn resp.data with
        | [] => ⟨.done, [.execCall q]⟩
        | d :: rest => ⟨.yield (.ok d) (.Cont resp rest), [.execCall q]⟩
  | .Cont r deq =>
    match deq with
    | [] => ⟨.done, []⟩
    | d :: rest =>
      if rest.isEmpty then
        match State.get_next (StateMode.Cont r rest : StateMode R P I) with
        | some m => ⟨.yield (.ok d) m, []⟩
        | none => ⟨.panic .oops, []⟩
      else ⟨.yield (.ok d) (.Cont r rest), []⟩
  | .Next (some r0) =>
    match (StateMode.Next (some r0) : StateMode R P I).take_next with
    | none => ⟨.panic .hmmm, []⟩
    | some resp =>
      match Response.get_next exec setPag resp with
      | (res, evs) =>
        match res with
        | .error e => ⟨.yield (.error e) .Failed, Event.getNextCall resp.pagination :: evs⟩
        | .ok none => ⟨.done, Event.getNextCall resp.pagination :: evs⟩
        | .ok (some resp2) =>
          match fn resp2.data with
          | [] => ⟨.done, Event.getNextCall resp.pagination :: evs⟩
          | d :: rest =>
            ⟨.yield (.ok d) (.Cont resp2 rest), Event.getNextCall resp.pagination :: evs⟩
  | _ => ⟨.panic .failedToProcess, []⟩

/-- How a fuel-bounded sequence of pulls ended: ran out of fuel in the
given live state, terminated (the stream is exhausted), or a pull
panicked. -/
inductive StopKind (R P I : Type) where
  | fuel : StateMode R P I → StopKind R P I
  | done : StopKind R P I
  | panicked : PanicMsg → StopKind R P I
deriving DecidableEq, Repr

/-- The observation of pulling the stream up to `fuel` times: the yielded
items in order, the events in order, and how the pulling ended. -/
structure RunRes (R E P I : Type) where
  out : List (Except E I)
  events : List (Event R)
  stop : StopKind R P I
deriving DecidableEq, Repr

/-- Pull the stream at most `fuel` times from state `s`. -/
def run {R P E I : Type} (exec : R → Except E (Response R P))
    (setPag : R → Option Cursor → R) (fn : P → List I) :
    Nat → StateMode R P I → RunRes R E P I
  | 0, s => ⟨[], [], .fuel s⟩
  | Nat.succ n, s =>
    match step exec setPag fn s with
    | ⟨.yield a s2, evs⟩ =>
      let r := run exec setPag fn n s2
      ⟨a :: r.out, evs ++ r.events, r.stop⟩
    | ⟨.done, evs⟩ => ⟨[], evs, .done⟩
    | ⟨.panic msg, evs⟩ => ⟨[], evs, .panicked msg⟩

/-- True exactly on executor round trips. -/
def Event.isExec {R : Type} : Event R → Bool
  | .execCall _ => true
  | .getNextCall _ => false

/-- Number of executor round trips recorded in a run. -/
def RunRes.calls {R E P I : Type} (r : RunRes R E P I) : Nat :=
  r.events.countP Event.isExec

/-- True on `Ok` items. -/
def isOkItem {E I : Type} : Except E I → Bool
  | .ok _ => true
  | .error _ => false

/-- `make_stream` constructs the initial state `Req(Some(req))`; no call
is made during construction (the function does not even receive the
executor). -/
def make_stream {R P I : Type} (req : R) : StateMode R P I :=
  .Req (some req)

/-! ## A concrete paginated endpoint and server, for the claims that
speak about whole servers. -/

/-- A minimal paginated request: only the pagination field, which the
adapter updates between pages via `set_pagination`. -/
structure PReq where
  after : Option Cursor
deriving DecidableEq, Repr

/-- `Paginated::set_pagination` for `PReq`: store the cursor. -/
def PReq.set_pagination (r : PReq) (c : Option Cursor) : PReq :=
  { r with after := c }

/-- One page a test server can serve: the payload (already a list of
items; the extraction function is the identity) and whether the server
reports a pagination cursor after this page. -/
structure Page (I : Type) where
  data : List I
  more : Bool
deriving DecidableEq, Repr

/-- Error message of the test server for a request past its last page. -/
def noPageMsg : String := "no further pages"

/-- Index of the page a request asks for: the first page when no cursor
is set, otherwise the page the cursor names. -/
def cursorIndex : Option Cursor → Nat
  | none => 0
  | some c => c

/-- The single-call executor of a test server holding the given pages:
it serves the page the request's cursor names, with a pagination cursor
pointing at the next page exactly when the page says more data exists,
and fails on a request past the last page. -/
def pagesExec {I : Type} (pages : List (Page I)) (r : PReq) :
    Except ClientError (Response PReq (List I)) :=
  match pages[cursorIndex r.after]? with
  | some pg =>
    .ok ⟨pg.data, if pg.more then some (cursorIndex r.after + 1) else none, some r, none⟩
  | none => .error (.Request noPageMsg)

/-- All items of a server from page `k` on, in page-then-position order. -/
def itemsFrom {I : Type} (pages : List (Page I)) (k : Nat) : List I :=
  (pages.drop k).flatMap Page.data

/-! ## The convenience helpers of claim C8. -/

/-- The error message of the missing-identity precondition check. -/
def noUserIdMsg : String := "no user_id found on token"

/-- A credential: it can report an optional user identity
(`TwitchToken::user_id`). -/
structure UserToken where
  user_id : Option String
deriving DecidableEq, Repr

/-- Modelled from the spec: the request type of the get-followed-streams
endpoint (its module is not among the staged files); only the identity
the helper fills in matters here. -/
structure GetFollowedStreamsRequest where
  user_id : String
deriving DecidableEq, Repr

/-- Modelled from the spec: the request type of the
get-broadcaster-subscriptions endpoint (its module is not among the
staged files). -/
structure GetBroadcasterSubscriptionsRequest where
  broadcaster_id : String
deriving DecidableEq, Repr

/-- `HelixClient::get_followed_streams` (client_ext.rs): if the token
reports no user id, return the single-error stream
(`futures::stream::once(Err(Custom))`, the `.error` case); otherwise
build the request and hand it to `make_stream` (the `.ok` case). -/
def get_followed_streams (token : UserToken) :
    Except ClientError GetFollowedStreamsRequest :=
  match token.user_id with
  | none => .error (.Custom noUserIdMsg)
  | some uid => .ok ⟨uid⟩

/-- `HelixClient::get_broadcaster_subscriptions` (client_ext.rs): same
shape as `get_followed_streams`. -/
def get_broadcaster_subscriptions (token : UserToken) :
    Except ClientError GetBroadcasterSubscriptionsRequest :=
  match token.user_id with
  | none => .error (.Custom noUserIdMsg)
  | some uid => .ok ⟨uid⟩

/-- Observation of a stream returned by a convenience helper: a
single-error stream yields its one `Err` on the first pull and never
calls the executor; a `make_stream` stream is observed through `run`. -/
def facadeObs {R P I : Type} (exec : R → Except ClientError (Response R P))
    (setPag : R → Option Cursor → R) (fn : P → List I) (fuel : Nat) :
    Except ClientError R → List (Except ClientError I) × Nat
  | .error e => (if fuel = 0 then [] else [.error e], 0)
  | .ok req =>
    ((run exec setPag fn fuel (make_stream req)).out,
      (run exec setPag fn fuel (make_stream req)).calls)

/-! ## The search-channels endpoint of claim C10
(`src/helix/endpoints/search/search_channels.rs`). -/

/-- `SearchChannelsRequest`: the query, the pagination cursor `after`,
the page size `first`, and the live-only filter. -/
structure SearchChannelsRequest where
  query : String
  after : Option Cursor
  first : Option Nat
  live_only : Option Bool
deriving DecidableEq, Repr

/-- `impl Paginated for SearchChannelsRequest`:
`fn set_pagination(&mut self, cursor) { self.after = cursor }`. -/
def SearchChannelsRequest.set_pagination (r : SearchChannelsRequest)
    (cursor : Option Cursor) : SearchChannelsRequest :=
  { r with after := cursor }

/-! ## Claim theorems -/

/-- C10: `set_pagination c` assigns `c` to the request's `after` field
and leaves `query`, `first` and `live_only` unchanged. -/
theorem searchChannels_set_pagination_only_after (r : SearchChannelsRequest)
    (c : Option Cursor) :
    (r.set_pagination c).after = c
      ∧ (r.set_pagination c).query = r.query
      ∧ (r.set_pagination c).first = r.first
      ∧ (r.set_pagination c).live_only = r.live_only :=
  ⟨rfl, rfl, rfl, rfl⟩

/-- C6: constructing a stream with `make_stream` performs no network
call — `make_stream` does not even receive the executor, and pulling
zero items from a freshly constructed stream records no event and leaves
the state untouched; the first executor call happens exactly when the
first item is demanded (one pull records exactly one executor call,
whatever the executor answers). -/
theorem make_stream_lazy {R P E I : Type} (exec : R → Except E (Response R P))
    (setPag : R → Option Cursor → R) (fn : P → List I) (req : R) :
    run exec setPag fn 0 (make_stream req) = ⟨[], [], .fuel (make_stream req)⟩
      ∧ (run exec setPag fn 1 (make_stream req)).calls = 1 := by
  refine ⟨rfl, ?_⟩
  cases hexec : exec req with
  | error e =>
    simp [run, step, make_stream, StateMode.take_initial, hexec, RunRes.calls, Event.isExec]
  | ok resp =>
    cases hd : fn resp.data with
    | nil =>
      simp [run, step, make_stream, StateMode.take_initial, hexec, hd, RunRes.calls,
        Event.isExec]
    | cons d rest =>
      simp [run, step, make_stream, StateMode.take_initial, hexec, hd, RunRes.calls,
        Event.isExec]

/-- C5: for a server answering pages `[a, b]` (cursor present) then
`[c]` (no cursor), the stream yields `Ok a, Ok b, Ok c` in exactly that
order — server-page order, payload order within a page — and then
terminates with no error, having made exactly the two page calls. -/
theorem make_stream_two_page_order {I : Type} (a b c : I) :
    run (pagesExec [⟨[a, b], true⟩, ⟨[c], false⟩]) PReq.set_pagination id 4
        (make_stream ⟨none⟩)
      = ⟨[.ok a, .ok b, .ok c],
         [.execCall ⟨none⟩, .getNextCall (some 1), .execCall ⟨some 1⟩], .done⟩ := rfl

/-- C1 (failing input): a server exposing page 1 = `[0]` with a
pagination cursor present and page 2 = `[1]`.  The stream yields `Ok 0`
and terminates cleanly after a single executor call: the continuation
call for page 2 is never issued, even though the fetched page carried a
cursor and yielded one item.  The second conjunct shows the server would
have served page 2.  This contradicts the claim (and the source's own
comment `// New request returned empty.` on the branch that causes it). -/
theorem make_stream_single_item_page_stops_early :
    run (pagesExec [⟨[0], true⟩, ⟨[1], false⟩]) PReq.set_pagination id 6
        (make_stream ⟨none⟩)
      = ⟨[Except.ok 0], [.execCall ⟨none⟩], .done⟩
      ∧ pagesExec [⟨[0], true⟩, ⟨[1], false⟩] ⟨some 1⟩
        = .ok ⟨[1], none, some ⟨some 1⟩, none⟩ :=
  ⟨rfl, rfl⟩

/-- C2 (counterexample): a server whose very first call fails.  The
stream yields exactly one `Err`, but the next pull does not find the
sequence exhausted: it hits the source's
`todo!("failed to process request")` placeholder (the run ends
`panicked`, not `done`), refuting "no other outcome on subsequent
pulls". -/
theorem make_stream_pull_after_error_panics :
    run (pagesExec ([] : List (Page Nat))) PReq.set_pagination id 2
        (make_stream ⟨none⟩)
      = ⟨[.error (.Request noPageMsg)], [.execCall ⟨none⟩],
         .panicked .failedToProcess⟩ := rfl

/-- C3 (counterexample): a server answering a single two-item page with
no pagination cursor.  Draining it puts the adapter in the
`AwaitingNext` state holding a cursor-less response, and the next pull
invokes `Response::get_next` on that response (the recorded
`getNextCall none` event) — the adapter performs no cursor check of its
own before the invocation. -/
theorem make_stream_invokes_get_next_without_cursor :
    (Event.getNextCall none : Event PReq)
      ∈ (run (pagesExec [⟨[1, 2], false⟩]) PReq.set_pagination id 3
          (make_stream ⟨none⟩)).events := by
  decide

/-- C3 (amended): in the `AwaitingNext` state the adapter invokes
`Response::get_next` unconditionally; the cursor check happens inside
`get_next`, which on a cursor-less response answers `None` without
issuing any network call, whereupon the stream terminates without
error.  So no network call is ever made for a cursor-absent response,
but the invocation itself does happen. -/
theorem make_stream_no_cursor_no_network_call {R P E I : Type}
    (exec : R → Except E (Response R P)) (setPag : R → Option Cursor → R)
    (fn : P → List I) (resp : Response R P) (h : resp.pagination = none) :
    step exec setPag fn (.Next (some resp)) = ⟨.done, [.getNextCall none]⟩ := by
  obtain ⟨dta, pag, rq, tot⟩ := resp
  simp only at h
  subst h
  cases rq <;> simp [step, StateMode.take_next, Response.get_next]

/-- Witness for C3's amended theorem at a concrete cursor-less
response. -/
theorem make_stream_no_cursor_no_network_call_witness :
    step (pagesExec ([] : List (Page Nat))) PReq.set_pagination id
        (.Next (some ⟨[], none, none, none⟩))
      = ⟨.done, [.getNextCall none]⟩ :=
  make_stream_no_cursor_no_network_call (pagesExec ([] : List (Page Nat)))
    PReq.set_pagination id ⟨[], none, none, none⟩ rfl

/-- C9: the placeholder-panic paths inside the state helpers are dead
code: whatever the state (reachable or not) and whatever the executor
answers, one pull never ends in the `todo!("hmmm")` / `expect("oops")`
panic of `take_initial`/`take_next` (`PanicMsg.hmmm`) nor in the
`assert!`/`panic!("oops")` of `State::get_next` (`PanicMsg.oops`):
`take_initial` is only invoked from the `Req(Some(_))` arm, `take_next`
only from the `Next(Some(_))` arm, and `State::get_next` only on a
`Cont` mode whose buffer is empty. -/
theorem make_stream_helper_panics_unreachable {R P E I : Type}
    (exec : R → Except E (Response R P)) (setPag : R → Option Cursor → R)
    (fn : P → List I) (s : StateMode R P I) :
    (step exec setPag fn s).out ≠ .panic .hmmm
      ∧ (step exec setPag fn s).out ≠ .panic .oops := by
  cases s with
  | Req o =>
    cases o with
    | none => simp [step]
    | some r =>
      cases hexec : exec r with
      | error e => simp [step, StateMode.take_initial, hexec]
      | ok resp =>
        cases hd : fn resp.data <;>
          simp [step, StateMode.take_initial, hexec, hd]
  | Cont r deq =>
    cases deq with
    | nil => simp [step]
    | cons d rest => cases rest <;> simp [step, State.get_next]
  | Next o =>
    cases o with
    | none => simp [step]
    | some resp =>
      obtain ⟨dta, pag, rq, tot⟩ := resp
      cases rq with
      | none => simp [step, StateMode.take_next, Response.get_next]
      | some q =>
        cases pag with
        | none => simp [step, StateMode.take_next, Response.get_next]
        | some c =>
          cases hexec : exec (setPag q (some c)) with
          | error e =>
            simp [step, StateMode.take_next, Response.get_next, hexec, Except.map]
          | ok r2 =>
            cases hd : fn r2.data <;>
              simp [step, StateMode.take_next, Response.get_next, hexec, Except.map, hd]
  | Failed => simp [step]

/-- C7: a fetched page whose extraction yields zero items terminates the
stream immediately — no error item, no further network call (only the
single call that fetched the empty page is on record), and this holds
on the first page (first conjunct) and on any later page (second
conjunct), whatever the pagination cursor of the fetched response. -/
theorem make_stream_empty_extraction_terminates :
    (∀ {R P E I : Type} (exec : R → Except E (Response R P))
        (setPag : R → Option Cursor → R) (fn : P → List I) (q : R)
        (resp : Response R P) (n : Nat),
        exec q = .ok resp → fn resp.data = [] →
        run exec setPag fn (n + 1) (.Req (some q)) = ⟨[], [.execCall q], .done⟩)
    ∧ (∀ {R P E I : Type} (exec : R → Except E (Response R P))
        (setPag : R → Option Cursor → R) (fn : P → List I)
        (resp : Response R P) (q2 : R) (c : Cursor) (resp2 : Response R P)
        (n : Nat),
        resp.request = some q2 → resp.pagination = some c →
        exec (setPag q2 (some c)) = .ok resp2 → fn resp2.data = [] →
        run exec setPag fn (n + 1) (.Next (some resp))
          = ⟨[], [.getNextCall (some c), .execCall (setPag q2 (some c))], .done⟩) := by
  constructor
  · intro R P E I exec setPag fn q resp n hexec hd
    simp [run, step, StateMode.take_initial, hexec, hd]
  · intro R P E I exec setPag fn resp q2 c resp2 n hrq hpag hexec hd
    obtain ⟨dta, pag, rq, tot⟩ := resp
    simp only at hrq hpag
    subst hrq
    subst hpag
    simp [run, step, StateMode.take_next, Response.get_next, hexec, Except.map, hd]

/-- Witness for C7 at a concrete server: an empty first page (first
conjunct) and an empty second page reached through a cursor (second
conjunct). -/
theorem make_stream_empty_extraction_terminates_witness :
    run (pagesExec [(⟨[], false⟩ : Page Nat)]) PReq.set_pagination id 1
        (.Req (some ⟨none⟩))
      = ⟨[], [.execCall ⟨none⟩], .done⟩
    ∧ run (pagesExec [(⟨[1, 2], true⟩ : Page Nat), ⟨[], false⟩])
        PReq.set_pagination id 1 (.Next (some ⟨[1, 2], some 1, some ⟨none⟩, none⟩))
      = ⟨[], [.getNextCall (some 1), .execCall ⟨some 1⟩], .done⟩ :=
  ⟨make_stream_empty_extraction_terminates.1 (pagesExec [(⟨[], false⟩ : Page Nat)])
      PReq.set_pagination id ⟨none⟩ ⟨[], none, some ⟨none⟩, none⟩ 0 rfl rfl,
    make_stream_empty_extraction_terminates.2
      (pagesExec [(⟨[1, 2], true⟩ : Page Nat), ⟨[], false⟩]) PReq.set_pagination id
      ⟨[1, 2], some 1, some ⟨none⟩, none⟩ ⟨none⟩ 1 ⟨[], none, some ⟨some 1⟩, none⟩ 0
      rfl rfl rfl rfl⟩

/-- C8: when the token reports no user id, `get_followed_streams` and
`get_broadcaster_subscriptions` short-circuit to the single-error
stream: the consumer observes exactly one `Err(Custom)` item (produced
without any executor call — zero calls on record for every fuel) and
nothing after it. -/
theorem facade_missing_user_id_single_error {P1 I1 P2 I2 : Type}
    (exec1 : GetFollowedStreamsRequest → Except ClientError (Response GetFollowedStreamsRequest P1))
    (setPag1 : GetFollowedStreamsRequest → Option Cursor → GetFollowedStreamsRequest)
    (fn1 : P1 → List I1)
    (exec2 : GetBroadcasterSubscriptionsRequest → Except ClientError (Response GetBroadcasterSubscriptionsRequest P2))
    (setPag2 : GetBroadcasterSubscriptionsRequest → Option Cursor → GetBroadcasterSubscriptionsRequest)
    (fn2 : P2 → List I2) (fuel : Nat) (token : UserToken)
    (h : token.user_id = none) :
    facadeObs exec1 setPag1 fn1 fuel (get_followed_streams token)
        = (if fuel = 0 then [] else [.error (.Custom noUserIdMsg)], 0)
      ∧ facadeObs exec2 setPag2 fn2 fuel (get_broadcaster_subscriptions token)
        = (if fuel = 0 then [] else [.error (.Custom noUserIdMsg)], 0) := by
  obtain ⟨uid⟩ := token
  simp only at h
  subst h
  constructor <;> rfl

/-- Witness for C8 at a concrete identity-less token, with one pull. -/
theorem facade_missing_user_id_single_error_witness :
    facadeObs (fun _ => Except.error (ClientError.Request noPageMsg))
        (fun r _ => r) (fun (_ : Unit) => ([] : List Unit)) 1
        (get_followed_streams ⟨none⟩)
      = ([.error (.Custom noUserIdMsg)], 0)
    ∧ facadeObs (fun _ => Except.error (ClientError.Request noPageMsg))
        (fun r _ => r) (fun (_ : Unit) => ([] : List Unit)) 1
        (get_broadcaster_subscriptions ⟨none⟩)
      = ([.error (.Custom noUserIdMsg)], 0) :=
  facade_missing_user_id_single_error
    (fun _ => Except.error (ClientError.Request noPageMsg)) (fun r _ => r)
    (fun (_ : Unit) => ([] : List Unit))
    (fun _ => Except.error (ClientError.Request noPageMsg)) (fun r _ => r)
    (fun (_ : Unit) => ([] : List Unit)) 1 ⟨none⟩ rfl

/-- Helper: one-pull unfolding of `run` when the pull yields. -/
theorem run_succ_yield {R P E I : Type} (exec : R → Except E (Response R P))
    (setPag : R → Option Cursor → R) (fn : P → List I) {s s2 : StateMode R P I}
    {a : Except E I} {evs : List (Event R)}
    (h : step exec setPag fn s = ⟨.yield a s2, evs⟩) (n : Nat) :
    run exec setPag fn (n + 1) s
      = ⟨a :: (run exec setPag fn n s2).out,
         evs ++ (run exec setPag fn n s2).events,
         (run exec setPag fn n s2).stop⟩ := by
  simp only [run]
  rw [h]

/-- Helper: one-pull unfolding of `run` when the pull terminates. -/
theorem run_succ_done {R P E I : Type} (exec : R → Except E (Response R P))
    (setPag : R → Option Cursor → R) (fn : P → List I) {s : StateMode R P I}
    {evs : List (Event R)} (h : step exec setPag fn s = ⟨.done, evs⟩) (n : Nat) :
    run exec setPag fn (n + 1) s = ⟨[], evs, .done⟩ := by
  simp only [run]
  rw [h]

/-- Helper: one-pull unfolding of `run` when the pull panics. -/
theorem run_succ_panic {R P E I : Type} (exec : R → Except E (Response R P))
    (setPag : R → Option Cursor → R) (fn : P → List I) {s : StateMode R P I}
    {m : PanicMsg} {evs : List (Event R)}
    (h : step exec setPag fn s = ⟨.panic m, evs⟩) (n : Nat) :
    run exec setPag fn (n + 1) s = ⟨[], evs, .panicked m⟩ := by
  simp only [run]
  rw [h]

/-- Helper: a pull that yields an `Err` always moves to the `Failed`
state. -/
theorem step_error_to_failed {R P E I : Type} (exec : R → Except E (Response R P))
    (setPag : R → Option Cursor → R) (fn : P → List I)
    (s s2 : StateMode R P I) (e : E) (evs : List (Event R))
    (h : step exec setPag fn s = ⟨.yield (.error e) s2, evs⟩) : s2 = .Failed := by
  cases s with
  | Req o =>
    cases o with
    | none => simp [step] at h
    | some r =>
      cases hexec : exec r with
      | error e2 =>
        simp [step, StateMode.take_initial, hexec] at h
        exact h.1.2.symm
      | ok resp =>
        cases hd : fn resp.data <;>
          simp [step, StateMode.take_initial, hexec, hd] at h
  | Cont r deq =>
    cases deq with
    | nil => simp [step] at h
    | cons d rest => cases rest <;> simp [step, State.get_next] at h
  | Next o =>
    cases o with
    | none => simp [step] at h
    | some resp =>
      obtain ⟨dta, pag, rq, tot⟩ := resp
      cases rq with
      | none => simp [step, StateMode.take_next, Response.get_next] at h
      | some q =>
        cases pag with
        | none => simp [step, StateMode.take_next, Response.get_next] at h
        | some c =>
          cases hexec : exec (setPag q (some c)) with
          | error e2 =>
            simp [step, StateMode.take_next, Response.get_next, hexec, Except.map] at h
            exact h.1.2.symm
          | ok r2 =>
            cases hd : fn r2.data <;>
              simp [step, StateMode.take_next, Response.get_next, hexec, Except.map, hd] at h
  | Failed => simp [step] at h

/-- Helper: pulling from the `Failed` state yields nothing, records no
event, and panics. -/
theorem run_from_failed {R P E I : Type} (exec : R → Except E (Response R P))
    (setPag : R → Option Cursor → R) (fn : P → List I) (n : Nat) :
    run exec setPag fn (n + 1) (StateMode.Failed : StateMode R P I)
      = ⟨[], [], .panicked .failedToProcess⟩ := by
  simp [run, step]

/-- Helper: in any run, every yielded item except possibly the last is
an `Ok`. -/
theorem run_out_dropLast_ok {R P E I : Type} (exec : R → Except E (Response R P))
    (setPag : R → Option Cursor → R) (fn : P → List I) :
    ∀ (fuel : Nat) (s : StateMode R P I),
      ((run exec setPag fn fuel s).out.dropLast.all isOkItem) = true := by
  intro fuel
  induction fuel with
  | zero => intro s; simp [run]
  | succ n ih =>
    intro s
    cases hstep : step exec setPag fn s with
    | mk out evs =>
      cases out with
      | done => simp [run, hstep]
      | panic m => simp [run, hstep]
      | yield a s2 =>
        cases a with
        | error e =>
          have hs2 : s2 = .Failed := step_error_to_failed exec setPag fn s s2 e evs hstep
          subst hs2
          rw [run_succ_yield exec setPag fn hstep n]
          cases n with
          | zero => simp [run]
          | succ m => rw [run_from_failed]; simp
        | ok d =>
          have hall := ih s2
          rw [run_succ_yield exec setPag fn hstep n]
          cases hout : (run exec setPag fn n s2).out with
          | nil => simp [hout]
          | cons y ys =>
            rw [hout] at hall
            simp only [hout, List.dropLast_cons₂, List.all_cons, isOkItem]
            simpa [isOkItem] using hall

/-- C2 (amended): a failed network call yields exactly one `Err`
carrying the executor's error and nothing after it: every yielded item
except possibly the last is an `Ok` (first conjunct), a pull that yields
an `Err` always moves to the terminal `Failed` state (third conjunct),
and pulling from `Failed` yields no item and records no call — but it
hits the source's `todo!("failed to process request")` placeholder
rather than reporting the end of the sequence (second conjunct). -/
theorem make_stream_error_terminal_amended {R P E I : Type}
    (exec : R → Except E (Response R P)) (setPag : R → Option Cursor → R)
    (fn : P → List I) (fuel : Nat) (s : StateMode R P I) :
    ((run exec setPag fn fuel s).out.dropLast.all isOkItem) = true
      ∧ run exec setPag fn (fuel + 1) (StateMode.Failed : StateMode R P I)
        = ⟨[], [], .panicked .failedToProcess⟩
      ∧ (∀ (s1 s2 : StateMode R P I) (e : E) (evs : List (Event R)),
          step exec setPag fn s1 = ⟨.yield (.error e) s2, evs⟩ → s2 = .Failed) :=
  ⟨run_out_dropLast_ok exec setPag fn fuel s,
    run_from_failed exec setPag fn fuel,
    fun s1 s2 e evs h => step_error_to_failed exec setPag fn s1 s2 e evs h⟩

/-- Helper: draining a non-empty `Cont` buffer yields its items in
order, recording no event, and ends in the `AwaitingNext` state of the
retained response. -/
theorem run_cont_drain {R P E I : Type} (exec : R → Except E (Response R P))
    (setPag : R → Option Cursor → R) (fn : P → List I) :
    ∀ (buf : List I) (d : I) (resp : Response R P) (m : Nat),
      run exec setPag fn ((d :: buf).length + m) (.Cont resp (d :: buf))
        = ⟨(d :: buf).map Except.ok
             ++ (run exec setPag fn m (.Next (some resp))).out,
           (run exec setPag fn m (.Next (some resp))).events,
           (run exec setPag fn m (.Next (some resp))).stop⟩ := by
  intro buf
  induction buf with
  | nil =>
    intro d resp m
    have hstep : step exec setPag fn (.Cont resp [d])
        = ⟨.yield (.ok d) (.Next (some resp)), []⟩ := by
      simp [step, State.get_next]
    have harith : ([d] : List I).length + m = m + 1 := by
      simp [Nat.add_comm]
    rw [harith, run_succ_yield exec setPag fn hstep m]
    simp
  | cons e tail ih =>
    intro d resp m
    have hstep : step exec setPag fn (.Cont resp (d :: e :: tail))
        = ⟨.yield (.ok d) (.Cont resp (e :: tail)), []⟩ := by
      simp [step]
    have harith : (d :: e :: tail).length + m = ((e :: tail).length + m) + 1 := by
      simp only [List.length_cons]
      omega
    rw [harith, run_succ_yield exec setPag fn hstep ((e :: tail).length + m),
      ih e resp m]
    simp

/-- Helper: the items from page `k` on are page `k`'s items followed by
the items from page `k + 1` on. -/
theorem itemsFrom_cons {I : Type} (pages : List (Page I)) (k : Nat) (pg : Page I)
    (h : pages[k]? = some pg) :
    itemsFrom pages k = pg.data ++ itemsFrom pages (k + 1) := by
  have hk : k < pages.length := by
    by_contra hnk
    rw [List.getElem?_eq_none (by omega)] at h
    cases h
  have hsome : pages[k] = pg := by
    rw [List.getElem?_eq_getElem hk] at h
    exact Option.some.inj h
  unfold itemsFrom
  rw [List.drop_eq_getElem_cons hk]
  simp [hsome]

/-- Helper: there are no items past the last page. -/
theorem itemsFrom_end {I : Type} (pages : List (Page I)) (k : Nat)
    (h : pages.length ≤ k) : itemsFrom pages k = [] := by
  unfold itemsFrom
  rw [List.drop_eq_nil_of_le h]
  rfl

/-- Helper: from the `AwaitingNext` state holding a cursor pointing at
page `k` of a well-formed server with `m` remaining pages, the stream
yields exactly the items from page `k` on, makes exactly `m` further
executor calls, and terminates cleanly. -/
theorem drain_from {I : Type} (pages : List (Page I))
    (hmid : ∀ i pg, pages[i]? = some pg → i + 1 < pages.length →
      pg.more = true ∧ 2 ≤ pg.data.length)
    (hlast : ∀ i pg, pages[i]? = some pg → i + 1 = pages.length →
      pg.more = false) :
    ∀ (m k : Nat) (dta : List I) (qa : Option Cursor) (tot : Option Nat),
      k + m = pages.length → 1 ≤ m →
      ((run (pagesExec pages) PReq.set_pagination id
            ((itemsFrom pages k).length + 1)
            (.Next (some ⟨dta, some k, some ⟨qa⟩, tot⟩))).out
          = (itemsFrom pages k).map Except.ok)
        ∧ ((run (pagesExec pages) PReq.set_pagination id
            ((itemsFrom pages k).length + 1)
            (.Next (some ⟨dta, some k, some ⟨qa⟩, tot⟩))).calls = m)
        ∧ ((run (pagesExec pages) PReq.set_pagination id
            ((itemsFrom pages k).length + 1)
            (.Next (some ⟨dta, some k, some ⟨qa⟩, tot⟩))).stop = .done) := by
  intro m
  induction m with
  | zero =>
    intro k dta qa tot hkm h1
    omega
  | succ m' ih =>
    intro k dta qa tot hkm h1
    have hk : k < pages.length := by omega
    have hpg : pages[k]? = some pages[k] := List.getElem?_eq_getElem hk
    have hsplit : itemsFrom pages k = pages[k].data ++ itemsFrom pages (k + 1) :=
      itemsFrom_cons pages k pages[k] hpg
    by_cases hend : k + 1 = pages.length
    · -- last page
      have hmore : pages[k].more = false := hlast k pages[k] hpg hend
      have hnil : itemsFrom pages (k + 1) = [] := itemsFrom_end pages (k + 1) (by omega)
      rcases hdata : pages[k].data with _ | ⟨d, rest⟩
      · -- empty last page: one pull, done
        have hstep : step (pagesExec pages) PReq.set_pagination id
            ((.Next (some ⟨dta, some k, some ⟨qa⟩, tot⟩)) : StateMode PReq (List I) I)
            = ⟨.done, [.getNextCall (some k), .execCall ⟨some k⟩]⟩ := by
          simp [step, StateMode.take_next, Response.get_next, PReq.set_pagination,
            pagesExec, cursorIndex, hpg, hdata, Except.map]
        have hfuel : (itemsFrom pages k).length + 1 = 0 + 1 := by
          rw [hsplit, hdata, hnil]
          rfl
        rw [hfuel, run_succ_done (pagesExec pages) PReq.set_pagination id hstep 0]
        refine ⟨?_, ?_, rfl⟩
        · rw [hsplit, hdata, hnil]
          rfl
        · simp [RunRes.calls, List.countP_cons, Event.isExec]
          omega
      · -- non-empty last page
        have hstep : step (pagesExec pages) PReq.set_pagination id
            ((.Next (some ⟨dta, some k, some ⟨qa⟩, tot⟩)) : StateMode PReq (List I) I)
            = ⟨.yield (.ok d)
                 (.Cont ⟨pages[k].data, none, some ⟨some k⟩, none⟩ rest),
               [.getNextCall (some k), .execCall ⟨some k⟩]⟩ := by
          simp [step, StateMode.take_next, Response.get_next, PReq.set_pagination,
            pagesExec, cursorIndex, hpg, hdata, hmore, Except.map]
        rcases rest with _ | ⟨e, tail⟩
        · -- singleton last page: yield, then `Cont` with empty buffer stops
          have hfuel : (itemsFrom pages k).length + 1 = 1 + 1 := by
            rw [hsplit, hdata, hnil]
            rfl
          have hstep2 : step (pagesExec pages) PReq.set_pagination id
              ((.Cont ⟨pages[k].data, none, some ⟨some k⟩, none⟩ []) :
                StateMode PReq (List I) I)
              = ⟨.done, []⟩ := by
            simp [step]
          rw [hfuel, run_succ_yield (pagesExec pages) PReq.set_pagination id hstep 1,
            run_succ_done (pagesExec pages) PReq.set_pagination id hstep2 0]
          refine ⟨?_, ?_, rfl⟩
          · rw [hsplit, hdata, hnil]
            rfl
          · simp [RunRes.calls, List.countP_cons, Event.isExec]
            omega
        · -- last page with at least two items: drain, then cursor-less
          -- `AwaitingNext` terminates without a call
          have hstep3 : step (pagesExec pages) PReq.set_pagination id
              ((.Next (some ⟨pages[k].data, none, some ⟨some k⟩, none⟩)) :
                StateMode PReq (List I) I)
              = ⟨.done, [.getNextCall none]⟩ := by
            simp [step, StateMode.take_next, Response.get_next]
          have hfuel : (itemsFrom pages k).length + 1
              = ((e :: tail).length + 1) + 1 := by
            rw [hsplit, hdata, hnil]
            simp
          rw [hfuel, run_succ_yield (pagesExec pages) PReq.set_pagination id hstep
            ((e :: tail).length + 1),
            run_cont_drain (pagesExec pages) PReq.set_pagination id tail e
              ⟨pages[k].data, none, some ⟨some k⟩, none⟩ 1,
            run_succ_done (pagesExec pages) PReq.set_pagination id hstep3 0]
          refine ⟨?_, ?_, rfl⟩
          · rw [hsplit, hdata, hnil]
            simp
          · simp [RunRes.calls, List.countP_cons, List.countP_append, Event.isExec]
            omega
    · -- middle page: at least two items, cursor present
      obtain ⟨hmore, hlen⟩ := hmid k pages[k] hpg (by omega)
      have hm1 : 1 ≤ m' := by omega
      rcases hdata : pages[k].data with _ | ⟨d, rest⟩
      · rw [hdata] at hlen
        simp at hlen
      rcases rest with _ | ⟨e, tail⟩
      · rw [hdata] at hlen
        simp at hlen
      have hstep : step (pagesExec pages) PReq.set_pagination id
          ((.Next (some ⟨dta, some k, some ⟨qa⟩, tot⟩)) : StateMode PReq (List I) I)
          = ⟨.yield (.ok d)
               (.Cont ⟨pages[k].data, some (k + 1), some ⟨some k⟩, none⟩
                 (e :: tail)),
             [.getNextCall (some k), .execCall ⟨some k⟩]⟩ := by
        simp [step, StateMode.take_next, Response.get_next, PReq.set_pagination,
          pagesExec, cursorIndex, hpg, hdata, hmore, Except.map]
      have hfuel : (itemsFrom pages k).length + 1
          = ((e :: tail).length + ((itemsFrom pages (k + 1)).length + 1)) + 1 := by
        rw [hsplit, hdata]
        simp only [List.length_append, List.length_cons]
        omega
      obtain ⟨iout, icalls, istop⟩ := ih (k + 1) pages[k].data (some k) none
        (by omega) hm1
      rw [hfuel, run_succ_yield (pagesExec pages) PReq.set_pagination id hstep
        ((e :: tail).length + ((itemsFrom pages (k + 1)).length + 1)),
        run_cont_drain (pagesExec pages) PReq.set_pagination id tail e
          ⟨pages[k].data, some (k + 1), some ⟨some k⟩, none⟩
          ((itemsFrom pages (k + 1)).length + 1)]
      refine ⟨?_, ?_, ?_⟩
      · rw [iout, hsplit, hdata]
        simp
      · simp [RunRes.calls, List.countP_cons, List.countP_append, Event.isExec]
          at icalls ⊢
        omega
      · exact istop

/-- C4: across a full drain of a well-formed `N`-page server (every page
before the last carries a cursor and at least two items, the last page
carries none), exactly `N` executor calls are made — never `N + 1`,
never fewer — and all items are yielded in order before clean
termination (first conjunct).  Call accounting per transition: a pull
leaving `Pending` makes exactly one executor call (second conjunct), a
pull draining a non-empty buffer makes none (third conjunct), and a pull
leaving `AwaitingNext` with a cursor present makes exactly one (fourth
conjunct). -/
theorem make_stream_exactly_n_calls {I : Type} (pages : List (Page I))
    (hne : pages ≠ [])
    (hmid : ∀ i pg, pages[i]? = some pg → i + 1 < pages.length →
      pg.more = true ∧ 2 ≤ pg.data.length)
    (hlast : ∀ i pg, pages[i]? = some pg → i + 1 = pages.length →
      pg.more = false) :
    (((run (pagesExec pages) PReq.set_pagination id
          ((itemsFrom pages 0).length + 1) (make_stream ⟨none⟩)).out
        = (itemsFrom pages 0).map Except.ok)
      ∧ ((run (pagesExec pages) PReq.set_pagination id
          ((itemsFrom pages 0).length + 1) (make_stream ⟨none⟩)).calls
        = pages.length)
      ∧ ((run (pagesExec pages) PReq.set_pagination id
          ((itemsFrom pages 0).length + 1) (make_stream ⟨none⟩)).stop = .done))
    ∧ (∀ {R P E J : Type} (exec : R → Except E (Response R P))
        (setPag : R → Option Cursor → R) (fn : P → List J) (r : R),
        ((step exec setPag fn (.Req (some r))).events.countP Event.isExec) = 1)
    ∧ (∀ {R P E J : Type} (exec : R → Except E (Response R P))
        (setPag : R → Option Cursor → R) (fn : P → List J)
        (resp : Response R P) (d : J) (rest : List J),
        ((step exec setPag fn (.Cont resp (d :: rest))).events.countP
          Event.isExec) = 0)
    ∧ (∀ {R P E J : Type} (exec : R → Except E (Response R P))
        (setPag : R → Option Cursor → R) (fn : P → List J)
        (resp : Response R P) (q : R) (c : Cursor),
        resp.request = some q → resp.pagination = some c →
        ((step exec setPag fn (.Next (some resp))).events.countP
          Event.isExec) = 1) := by
  refine ⟨?_, ?_, ?_, ?_⟩
  · -- the full drain
    have hk : 0 < pages.length := by
      cases pages with
      | nil => exact absurd rfl hne
      | cons p ps => simp
    have hpg : pages[0]? = some pages[0] := List.getElem?_eq_getElem hk
    have hsplit : itemsFrom pages 0 = pages[0].data ++ itemsFrom pages 1 :=
      itemsFrom_cons pages 0 pages[0] hpg
    by_cases hend : 0 + 1 = pages.length
    · -- a single-page server
      have hmore : pages[0].more = false := hlast 0 pages[0] hpg hend
      have hnil : itemsFrom pages 1 = [] := itemsFrom_end pages 1 (by omega)
      rcases hdata : pages[0].data with _ | ⟨d, rest⟩
      · have hstep : step (pagesExec pages) PReq.set_pagination id
            ((make_stream ⟨none⟩) : StateMode PReq (List I) I)
            = ⟨.done, [.execCall ⟨none⟩]⟩ := by
          simp [step, make_stream, StateMode.take_initial, pagesExec, cursorIndex,
            hpg, hdata]
        have hfuel : (itemsFrom pages 0).length + 1 = 0 + 1 := by
          rw [hsplit, hdata, hnil]
          rfl
        rw [hfuel, run_succ_done (pagesExec pages) PReq.set_pagination id hstep 0]
        refine ⟨?_, ?_, rfl⟩
        · rw [hsplit, hdata, hnil]
          rfl
        · simp [RunRes.calls, List.countP_cons, Event.isExec]
          omega
      · have hstep : step (pagesExec pages) PReq.set_pagination id
            ((make_stream ⟨none⟩) : StateMode PReq (List I) I)
            = ⟨.yield (.ok d)
                 (.Cont ⟨pages[0].data, none, some ⟨none⟩, none⟩ rest),
               [.execCall ⟨none⟩]⟩ := by
          simp [step, make_stream, StateMode.take_initial, pagesExec, cursorIndex,
            hpg, hdata, hmore]
        rcases rest with _ | ⟨e, tail⟩
        · have hfuel : (itemsFrom pages 0).length + 1 = 1 + 1 := by
            rw [hsplit, hdata, hnil]
            rfl
          have hstep2 : step (pagesExec pages) PReq.set_pagination id
              ((.Cont ⟨pages[0].data, none, some ⟨none⟩, none⟩ []) :
                StateMode PReq (List I) I)
              = ⟨.done, []⟩ := by
            simp [step]
          rw [hfuel, run_succ_yield (pagesExec pages) PReq.set_pagination id hstep 1,
            run_succ_done (pagesExec pages) PReq.set_pagination id hstep2 0]
          refine ⟨?_, ?_, rfl⟩
          · rw [hsplit, hdata, hnil]
            rfl
          · simp [RunRes.calls, List.countP_cons, Event.isExec]
            omega
        · have hstep3 : step (pagesExec pages) PReq.set_pagination id
              ((.Next (some ⟨pages[0].data, none, some ⟨none⟩, none⟩)) :
                StateMode PReq (List I) I)
              = ⟨.done, [.getNextCall none]⟩ := by
            simp [step, StateMode.take_next, Response.get_next]
          have hfuel : (itemsFrom pages 0).length + 1
              = ((e :: tail).length + 1) + 1 := by
            rw [hsplit, hdata, hnil]
            simp
          rw [hfuel, run_succ_yield (pagesExec pages) PReq.set_pagination id hstep
            ((e :: tail).length + 1),
            run_cont_drain (pagesExec pages) PReq.set_pagination id tail e
              ⟨pages[0].data, none, some ⟨none⟩, none⟩ 1,
            run_succ_done (pagesExec pages) PReq.set_pagination id hstep3 0]
          refine ⟨?_, ?_, rfl⟩
          · rw [hsplit, hdata, hnil]
            simp
          · simp [RunRes.calls, List.countP_cons, List.countP_append, Event.isExec]
            omega
    · -- at least two pages
      obtain ⟨hmore, hlen⟩ := hmid 0 pages[0] hpg (by omega)
      rcases hdata : pages[0].data with _ | ⟨d, rest⟩
      · rw [hdata] at hlen
        simp at hlen
      rcases rest with _ | ⟨e, tail⟩
      · rw [hdata] at hlen
        simp at hlen
      have hstep : step (pagesExec pages) PReq.set_pagination id
          ((make_stream ⟨none⟩) : StateMode PReq (List I) I)
          = ⟨.yield (.ok d)
               (.Cont ⟨pages[0].data, some 1, some ⟨none⟩, none⟩ (e :: tail)),
             [.execCall ⟨none⟩]⟩ := by
        simp [step, make_stream, StateMode.take_initial, pagesExec, cursorIndex,
          hpg, hdata, hmore]
      have hfuel : (itemsFrom pages 0).length + 1
          = ((e :: tail).length + ((itemsFrom pages 1).length + 1)) + 1 := by
        rw [hsplit, hdata]
        simp only [List.length_append, List.length_cons]
        omega
      obtain ⟨iout, icalls, istop⟩ := drain_from pages hmid hlast
        (pages.length - 1) 1 pages[0].data none none (by omega) (by omega)
      rw [hfuel, run_succ_yield (pagesExec pages) PReq.set_pagination id hstep
        ((e :: tail).length + ((itemsFrom pages 1).length + 1)),
        run_cont_drain (pagesExec pages) PReq.set_pagination id tail e
          ⟨pages[0].data, some 1, some ⟨none⟩, none⟩
          ((itemsFrom pages 1).length + 1)]
      refine ⟨?_, ?_, ?_⟩
      · rw [iout, hsplit, hdata]
        simp
      · simp [RunRes.calls, List.countP_cons, List.countP_append, Event.isExec]
          at icalls ⊢
        omega
      · exact istop
  · -- one call per pull leaving `Pending`
    intro R P E J exec setPag fn r
    cases hexec : exec r with
    | error e =>
      simp [step, StateMode.take_initial, hexec, List.countP_cons, Event.isExec]
    | ok resp =>
      cases hd : fn resp.data <;>
        simp [step, StateMode.take_initial, hexec, hd, List.countP_cons,
          Event.isExec]
  · -- no call while draining a non-empty buffer
    intro R P E J exec setPag fn resp d rest
    cases rest <;> simp [step, State.get_next]
  · -- one call per pull leaving `AwaitingNext` with a cursor
    intro R P E J exec setPag fn resp q c hrq hpag
    obtain ⟨dta, pag, rq, tot⟩ := resp
    simp only at hrq hpag
    subst hrq
    subst hpag
    cases hexec : exec (setPag q (some c)) with
    | error e =>
      simp [step, StateMode.take_next, Response.get_next, hexec, Except.map,
        List.countP_cons, Event.isExec]
    | ok r2 =>
      cases hd : fn r2.data <;>
        simp [step, StateMode.take_next, Response.get_next, hexec, Except.map, hd,
          List.countP_cons, Event.isExec]

/-- Witness for C4 at the spec's end-to-end scenario: three pages of
sizes two, two and one, cursors present after the first two pages only;
the collected output has the five items in order and exactly three
executor calls are recorded. -/
theorem make_stream_exactly_n_calls_witness :
    ((run (pagesExec [(⟨[1, 2], true⟩ : Page Nat), ⟨[3, 4], true⟩, ⟨[5], false⟩])
        PReq.set_pagination id 6 (make_stream ⟨none⟩)).out
      = [Except.ok 1, .ok 2, .ok 3, .ok 4, .ok 5])
    ∧ ((run (pagesExec [(⟨[1, 2], true⟩ : Page Nat), ⟨[3, 4], true⟩, ⟨[5], false⟩])
        PReq.set_pagination id 6 (make_stream ⟨none⟩)).calls = 3)
    ∧ ((run (pagesExec [(⟨[1, 2], true⟩ : Page Nat), ⟨[3, 4], true⟩, ⟨[5], false⟩])
        PReq.set_pagination id 6 (make_stream ⟨none⟩)).stop = .done) :=
  (make_stream_exactly_n_calls [(⟨[1, 2], true⟩ : Page Nat), ⟨[3, 4], true⟩, ⟨[5], false⟩]
    (by decide)
    (by
      intro i pg h hi
      rcases i with _ | _ | _ | i
      · rw [List.getElem?_cons_zero] at h
        cases h
        decide
      · rw [List.getElem?_cons_succ, List.getElem?_cons_zero] at h
        cases h
        decide
      · simp at hi
      · simp only [List.length_cons, List.length_nil] at hi
        omega)
    (by
      intro i pg h hi
      rcases i with _ | _ | _ | i
      · simp at hi
      · simp at hi
      · rw [List.getElem?_cons_succ, List.getElem?_cons_succ,
          List.getElem?_cons_zero] at h
        cases h
        decide
      · simp at h)).1

end TwitchStream
